import Mathlib

/-!
Verification of the Screen Time Analysis dashboard (`screen.py`).

The script is a linear pandas pipeline: load a CSV, drop `Timestamp`,
rename fourteen long survey headers to short identifiers, replace missing
cells by the string `"0"`, then run a sequence of guarded report steps
(summary, null counts, correlation, an outlier clamp on
`Ave_Weekday_Sleep`, a group-by mean, a `< 6` filter with projection and
scatter, and two chi-square tests).

The embedding below models the DataFrame as a `Table` of `Value` cells,
numeric column arithmetic over `ℚ`, failure (pandas exceptions) as
`Except String`, and the two library scalars the script consumes but does
not define — the square root inside `Series.std` and the chi-square
p-value of `scipy.stats.chi2_contingency` — as oracle parameters.
-/

/-- A cell of the survey table: a numeric value, a text value, or the
missing marker (`NaN`) as produced by `pd.read_csv`. -/
inductive Value where
  | num (q : ℚ)
  | str (s : String)
  | missing
deriving DecidableEq, Repr

/-- The in-memory DataFrame: a list of column labels and a list of rows,
each row holding one cell per column position. -/
structure Table where
  cols : List String
  rows : List (List Value)
deriving DecidableEq, Repr

/-- Position of a column label in the header list (`df.columns`); `none`
when the label is absent, which is what every `in df.columns` guard
tests. -/
def colIdx (cs : List String) (c : String) : Option Nat :=
  match cs with
  | [] => none
  | d :: ds => if d = c then some 0 else (colIdx ds c).map (· + 1)

/-- The column at position `i`, as `df[label]` reads it. -/
def colAt (t : Table) (i : Nat) : List Value :=
  t.rows.map (fun r => r.getD i Value.missing)

/-- The rename dictionary of `load_data` (lines 20-36): each long survey
header is mapped to its short identifier. -/
def renameMap : List (String × String) :=
  [("What is your age?", "Age"),
   ("What is your gender?", "Gender"),
   ("What is your education level?", "Education"),
   ("On an average weekday, how many hours do you spend looking at screens (computers, smartphones, tablets, TVs, etc.) for non-academic purposes (e.g., entertainment, social media, gaming)?", "ST_Weekday"),
   ("On an average weekend day, how many hours do you spend looking at screens for non-academic purposes?", "ST_Weekend"),
   ("Which of the following activities do you engage in on screens during your leisure time?", "Leisure_ST_Act"),
   ("How often do you engage in this activity?", "Average_Distraction"),
   ("Do you experience any of the following health issues due to a prolonged screen time?", "Health_Effects"),
   ("Are you aware of the negative effects of excessive screen time on health (e.g., eye strain, sleep disturbances, sedentary lifestyle, mental health)?", "Health_awarness"),
   ("What devices do you primarily use for leisure screen time?", "Devices_Used_In_Leisure"),
   ("On average, how many hours of sleep do you get on a typical weekday night?", "Ave_Weekday_Sleep"),
   ("On average, how many hours of sleep do you get on a typical weekend night?", "Ave_Weekend_Sleep"),
   ("Do you use any corrective eyewear? (specs, contact lenses, etc)", "Eyewear_User"),
   ("Has your screen time affected your face-to-face social interactions with friends and family?", "Interaction_Affects"),
   ("Do you actively try to limit your screen time to mitigate these negative effects?", "Mitigate_Screen_time")]

/-- `df.rename(columns=...)` on one label: a label present in the
dictionary becomes its short name, any other label is left unchanged. -/
def renameColumn (c : String) : String :=
  match renameMap.find? (fun p => p.1 = c) with
  | some p => p.2
  | none => c

/-- `df.rename(columns={...}, inplace=True)`: relabels the header, rows
untouched. -/
def renameTable (t : Table) : Table :=
  ⟨t.cols.map renameColumn, t.rows⟩

/-- `df.drop([c], axis=1, inplace=True)`: removes the column, raising
`KeyError` when the label is absent. -/
def dropCol (t : Table) (c : String) : Except String Table :=
  match colIdx t.cols c with
  | some i => .ok ⟨t.cols.eraseIdx i, t.rows.map (fun r => r.eraseIdx i)⟩
  | none => .error "KeyError"

/-- One cell of `df.replace(np.nan, '0', inplace=True)`: the missing
marker becomes the literal string `"0"`, every other cell is kept. -/
def replaceCell (v : Value) : Value :=
  match v with
  | .missing => .str "0"
  | v => v

/-- `df.replace(np.nan, '0', inplace=True)` over the whole table. -/
def replaceMissing (t : Table) : Table :=
  ⟨t.cols, t.rows.map (fun r => r.map replaceCell)⟩

/-- `load_data` (lines 17-38) after the CSV is in memory: drop
`Timestamp`, rename the survey headers, replace missing cells by `"0"`. -/
def load_data (t : Table) : Except String Table := do
  let t1 ← dropCol t "Timestamp"
  pure (replaceMissing (renameTable t1))

/-- `df.isnull()` on one cell. -/
def isMissing (v : Value) : Bool :=
  match v with
  | .missing => true
  | _ => false

/-- `df.isnull().sum()` for the column at position `j`: how many cells of
that column are the missing marker. -/
def countMissingCol (t : Table) (j : Nat) : Nat :=
  (t.rows.filterMap (fun r => r.get? j)).countP isMissing

/-- `Series.mean()` on a numeric column: sum over length. -/
def colMean (xs : List ℚ) : ℚ := xs.sum / xs.length

/-- `Series.var()` with the pandas default `ddof=1`: squared deviations
from the mean divided by `n - 1`. -/
def sampleVar (xs : List ℚ) : ℚ :=
  (xs.map (fun v => (v - colMean xs) ^ 2)).sum / ((xs.length : ℚ) - 1)

/-- `std_dev = df[c].std()` (line 90): the standard deviation is the
nonnegative square root of the sample variance; since the root of a
rational need not be rational, a scalar σ is characterised by this
predicate instead of computed. -/
def isStdDev (xs : List ℚ) (σ : ℚ) : Prop := 0 ≤ σ ∧ σ * σ = sampleVar xs

instance (xs : List ℚ) (σ : ℚ) : Decidable (isStdDev xs σ) := by
  unfold isStdDev; infer_instance

/-- `upper_limit = avg_sleep + 3*std_dev` (line 91). -/
def upperLimit (xs : List ℚ) (σ : ℚ) : ℚ := colMean xs + 3 * σ

/-- `lower_limit = avg_sleep - 3*std_dev` (line 92). -/
def lowerLimit (xs : List ℚ) (σ : ℚ) : ℚ := colMean xs - 3 * σ

/-- The clamp of line 101:
`df.loc[df[c] >= upper_limit, c] = upper_limit` — every value at or above
the threshold is overwritten with the threshold, all others kept. -/
def clampUpper (u : ℚ) (xs : List ℚ) : List ℚ :=
  xs.map (fun v => if u ≤ v then u else v)

/-- Arithmetic access to a cell, as pandas object-dtype arithmetic sees
it: a numeric cell yields its number; a text cell (or the missing marker,
which no longer occurs after the Loader) raises `TypeError` — it is never
coerced to a number. -/
def Value.toNum : Value → Except String ℚ
  | .num q => .ok q
  | _ => .error "TypeError"

/-- The numeric contents of a column, for `mean`/`std`/comparison
arithmetic: fails with `TypeError` at the first non-numeric cell. -/
def numsE : List Value → Except String (List ℚ)
  | [] => .ok []
  | v :: vs => do
      let q ← v.toNum
      let qs ← numsE vs
      pure (q :: qs)

/-- The text contents of a categorical column (the survey category
columns hold text labels). -/
def strsE : List Value → Except String (List String)
  | [] => .ok []
  | v :: vs =>
      match v with
      | .str s => do
          let ss ← strsE vs
          pure (s :: ss)
      | _ => .error "TypeError"

/-- Insert a key into a sorted duplicate-free list of keys, keeping it
sorted and duplicate-free. -/
def insertSorted (a : String) : List String → List String
  | [] => [a]
  | b :: bs =>
      if a = b then b :: bs
      else if a < b then a :: b :: bs
      else b :: insertSorted a bs

/-- The sorted list of distinct keys, as `groupby` and `crosstab` order
their group labels (pandas sorts group keys by default). -/
def sortDedup (xs : List String) : List String := xs.foldr insertSorted []

/-- `df.groupby('Age')['Ave_Weekday_Sleep'].mean()` (line 111) on
(age, sleep) pairs: one entry per distinct age, in sorted key order, each
carrying the arithmetic mean of the sleep values of that age group. -/
def groupMeans (rows : List (String × ℚ)) : List (String × ℚ) :=
  (sortDedup (rows.map Prod.fst)).map
    (fun k => (k, colMean ((rows.filter (fun p => p.1 == k)).map Prod.snd)))

/-- The clamp of line 101 acting on (age, sleep) pairs of the shared
table: the sleep component is clamped at the upper limit, ages kept. -/
def clampPairs (u : ℚ) (rows : List (String × ℚ)) : List (String × ℚ) :=
  rows.map (fun p => (p.1, if u ≤ p.2 then u else p.2))

/-- `filtered_df = df[df['Ave_Weekday_Sleep'] < b]` (line 125) on pairs. -/
def filterLtPairs (b : ℚ) (rows : List (String × ℚ)) : List (String × ℚ) :=
  rows.filter (fun p => p.2 < b)

/-- One rendered page element of the report. Fallback messages carry the
column names the emitting guard found missing, exactly as the fixed
`st.write` strings of the script name them. -/
inductive Msg where
  | missingCols (cs : List String)
  | boxplot (xs : List ℚ)
  | statLine (q : ℚ)
  | tableHead (rows : List (List Value))
  | scatter (pts : List (Value × Value))
  | barChart (bars : List (String × ℚ))
  | chiReport (p : ℚ) (significant : Bool)
deriving DecidableEq, Repr

/-- The outlier block (lines 82-106), with the square root inside
`Series.std` abstracted as the oracle `std`: guarded on the presence of
`Ave_Weekday_Sleep`; when present it renders a boxplot, the mean,
min, max and the two limits, then the post-clamp boxplot; when absent it
emits the fixed fallback message naming the column. Non-numeric cells
make the arithmetic raise. -/
def outlierStep (std : List ℚ → ℚ) (t : Table) : Except String (List Msg) :=
  match colIdx t.cols "Ave_Weekday_Sleep" with
  | none => .ok [.missingCols ["Ave_Weekday_Sleep"]]
  | some i => do
      let qs ← numsE (colAt t i)
      let avg := colMean qs
      let u := avg + 3 * std qs
      let lo := avg - 3 * std qs
      pure [.boxplot qs, .statLine avg, .statLine ((qs.min?).getD 0),
            .statLine ((qs.max?).getD 0), .statLine u, .statLine lo,
            .boxplot (clampUpper u qs)]

/-- The table-effect of the outlier block: line 101 writes the clamped
column back into the shared `df` in place; every other statement of the
script only reads the table. When the column is absent the guard skips
the block and the table is untouched. -/
def outlierTableEffect (std : List ℚ → ℚ) (t : Table) : Except String Table :=
  match colIdx t.cols "Ave_Weekday_Sleep" with
  | none => .ok t
  | some i => do
      let qs ← numsE (colAt t i)
      let u := colMean qs + 3 * std qs
      pure ⟨t.cols,
        (t.rows.zip ((clampUpper u qs).map Value.num)).map
          (fun p => p.1.set i p.2)⟩

/-- The group-by block (lines 110-120): guarded on both `Age` and
`Ave_Weekday_Sleep`; when present it renders the bar chart of group
means, else the fixed message naming both columns. -/
def groupStep (t : Table) : Except String (List Msg) :=
  match colIdx t.cols "Age", colIdx t.cols "Ave_Weekday_Sleep" with
  | some i, some j => do
      let ages ← strsE (colAt t i)
      let qs ← numsE (colAt t j)
      pure [.barChart (groupMeans (ages.zip qs))]
  | _, _ => .ok [.missingCols ["Age", "Ave_Weekday_Sleep"]]

/-- `df[df['Ave_Weekday_Sleep'] < b]` on table rows: keeps the rows whose
cell at position `i` is a number below `b`; a non-numeric cell makes the
comparison raise `TypeError`. -/
def filterRowsLtE (i : Nat) (b : ℚ) : List (List Value) → Except String (List (List Value))
  | [] => .ok []
  | r :: rs => do
      let q ← Value.toNum (r.getD i Value.missing)
      let rest ← filterRowsLtE i b rs
      pure (if q < b then r :: rest else rest)

/-- The filtered sub-report block (lines 124-147): guarded on
`Ave_Weekday_Sleep`; inside, the three-column projection is guarded on
`Health_Effects`, `Eyewear_User` and `Interaction_Affects` together
(line 129) and the scatter plot on `Health_Effects` alone (line 136),
each falling back to its fixed message naming the missing column(s). -/
def filteredStep (t : Table) : Except String (List Msg) :=
  match colIdx t.cols "Ave_Weekday_Sleep" with
  | none => .ok [.missingCols ["Ave_Weekday_Sleep"]]
  | some i => do
      let fr ← filterRowsLtE i 6 t.rows
      let projMsg :=
        match colIdx t.cols "Health_Effects", colIdx t.cols "Eyewear_User",
              colIdx t.cols "Interaction_Affects" with
        | some h, some e, some a =>
            Msg.tableHead ((fr.map (fun r =>
              [r.getD h Value.missing, r.getD e Value.missing,
               r.getD a Value.missing])).take 5)
        | _, _, _ =>
            Msg.missingCols ["Health_Effects", "Eyewear_User", "Interaction_Affects"]
      let scatMsg :=
        match colIdx t.cols "Health_Effects" with
        | some h =>
            Msg.scatter (fr.map (fun r =>
              (r.getD i Value.missing, r.getD h Value.missing)))
        | none => Msg.missingCols ["Health_Effects"]
      pure [.tableHead (fr.take 5), projMsg, scatMsg]

/-- `pd.crosstab(df[c1], df[c2])`: the contingency table of joint
category counts, rows and columns indexed by the sorted distinct labels
of each variable. -/
def crosstab (ps : List (String × String)) : List (List Nat) :=
  (sortDedup (ps.map Prod.fst)).map (fun x =>
    (sortDedup (ps.map Prod.snd)).map (fun y =>
      ((ps.filter (fun p => p.1 == x)).map Prod.snd).countP (fun s => s == y)))

/-- One chi-square block (lines 151-160 and 164-173), with the p-value of
`scipy.stats.chi2_contingency` abstracted as the oracle `pval`: guarded
on both columns; when present it reports the p-value of the contingency
table and classifies the association as significant exactly when
`p < 0.05`; when a column is absent it emits the fixed message naming
both columns. -/
def chiStep (pval : List (List Nat) → ℚ) (c1 c2 : String) (t : Table) :
    Except String (List Msg) :=
  match colIdx t.cols c1, colIdx t.cols c2 with
  | some i, some j => do
      let a ← strsE (colAt t i)
      let b ← strsE (colAt t j)
      let p := pval (crosstab (a.zip b))
      pure [.chiReport p (decide (p < 1/20))]
  | _, _ => .ok [.missingCols [c1, c2]]

/-- The report steps that touch the shared table, run top to bottom: the
outlier block first applies its in-place clamp, then the group-by block,
the filtered sub-report and the two chi-square blocks run over the
(possibly mutated) table; an uncaught exception aborts the run. The final
state of the shared table is returned alongside the rendered pages. -/
def reportRun (std : List ℚ → ℚ) (pval : List (List Nat) → ℚ) (t : Table) :
    Except String (List Msg × Table) := do
  let m1 ← outlierStep std t
  let t1 ← outlierTableEffect std t
  let m2 ← groupStep t1
  let m3 ← filteredStep t1
  let m4 ← chiStep pval "ST_Weekday" "Interaction_Affects" t1
  let m5 ← chiStep pval "ST_Weekend" "Interaction_Affects" t1
  pure (m1 ++ m2 ++ m3 ++ m4 ++ m5, t1)

/-- Sixteen survey rows of one age group: fifteen sleep values of 0 and
one of 16 (mean 1, sample variance 16, upper limit 13). -/
def c2rows : List (String × ℚ) :=
  [("A", 0), ("A", 0), ("A", 0), ("A", 0), ("A", 0), ("A", 0), ("A", 0),
   ("A", 0), ("A", 0), ("A", 0), ("A", 0), ("A", 0), ("A", 0), ("A", 0),
   ("A", 0), ("A", 16)]

theorem replaceCell_not_missing (v : Value) : replaceCell v ≠ Value.missing := by
  cases v <;> simp [replaceCell]

theorem load_data_rows (t tl : Table) (h : load_data t = .ok tl) :
    ∀ r ∈ tl.rows, ∀ v ∈ r, v ≠ Value.missing := by
  unfold load_data dropCol at h
  cases hc : colIdx t.cols "Timestamp" with
  | none => rw [hc] at h; exact absurd h (by simp [bind, Except.bind])
  | some i =>
    rw [hc] at h
    simp only [bind, Except.bind, pure, Except.pure, Except.ok.injEq] at h
    subst h
    intro r hr v hv
    simp only [replaceMissing, renameTable, List.mem_map] at hr
    obtain ⟨r0, _, hr0⟩ := hr
    subst hr0
    simp only [List.mem_map] at hv
    obtain ⟨v0, _, hv0⟩ := hv
    subst hv0
    exact replaceCell_not_missing v0

/-- C3: after the Loader runs, every cell that was missing has been
replaced by the string `"0"`, so no cell is a missing marker and the
`df.isnull().sum()` report (lines 64-65) counts zero for every column. -/
theorem loader_leaves_no_missing (t tl : Table) (h : load_data t = .ok tl) :
    (∀ r ∈ tl.rows, ∀ v ∈ r, v ≠ Value.missing) ∧
    ∀ j, countMissingCol tl j = 0 := by
  refine ⟨load_data_rows t tl h, fun j => ?_⟩
  unfold countMissingCol
  rw [List.countP_eq_zero]
  intro v hv
  simp only [List.mem_filterMap] at hv
  obtain ⟨r, hr, hget⟩ := hv
  have hvr : v ∈ r := List.get?_mem hget
  have := load_data_rows t tl h r hr v hvr
  cases v <;> simp_all [isMissing]

/-- C3 witness: a two-column table with a `Timestamp` column and one
missing cell loads into a table with no missing marker. -/
theorem loader_leaves_no_missing_witness :
    (∀ r ∈ (Table.mk ["Age"] [[Value.str "0"]]).rows,
        ∀ v ∈ r, v ≠ Value.missing) ∧
    ∀ j, countMissingCol (Table.mk ["Age"] [[Value.str "0"]]) j = 0 :=
  loader_leaves_no_missing
    (Table.mk ["Timestamp", "What is your age?"] [[Value.num 1, Value.missing]])
    (Table.mk ["Age"] [[Value.str "0"]]) rfl

/-- C1: with μ and σ computed over the pre-clamp values and
`upper = μ + 3σ`, `lower = μ - 3σ`, the clamp of line 101 maps every
value `v` to `min v upper`: values at or above `upper` become `upper`,
and values below `lower` — like every value below `upper` — are left
unchanged, so the lower bound is never enforced. -/
theorem clamp_is_min_with_upper (xs : List ℚ) (σ : ℚ) (h : isStdDev xs σ) :
    clampUpper (upperLimit xs σ) xs =
      xs.map (fun v => min v (upperLimit xs σ)) ∧
    (∀ v ∈ xs, upperLimit xs σ ≤ v →
      min v (upperLimit xs σ) = upperLimit xs σ) ∧
    (∀ v ∈ xs, v < lowerLimit xs σ → min v (upperLimit xs σ) = v) := by
  obtain ⟨hσ, -⟩ := h
  refine ⟨?_, ?_, ?_⟩
  · unfold clampUpper
    apply List.map_congr_left
    intro v _
    by_cases hc : upperLimit xs σ ≤ v
    · rw [if_pos hc, min_eq_right hc]
    · rw [if_neg hc, min_eq_left (le_of_lt (lt_of_not_le hc))]
  · intro v _ hv
    exact min_eq_right hv
  · intro v _ hv
    have hlo : lowerLimit xs σ ≤ upperLimit xs σ := by
      unfold lowerLimit upperLimit
      linarith
    exact min_eq_left (le_of_lt (lt_of_lt_of_le hv hlo))

/-- C1 witness: on the column `[0, 2, 4]` the sample standard deviation
is exactly `2`, and the clamp equals the pointwise `min` with the upper
limit. -/
theorem clamp_is_min_with_upper_witness :
    isStdDev [0, 2, 4] 2 ∧
    clampUpper (upperLimit [0, 2, 4] 2) [0, 2, 4] =
      [0, 2, 4].map (fun v => min v (upperLimit [0, 2, 4] 2)) :=
  ⟨by norm_num [isStdDev, sampleVar, colMean],
   (clamp_is_min_with_upper [0, 2, 4] 2
     (by norm_num [isStdDev, sampleVar, colMean])).1⟩

/-- C9: the σ that enters the outlier bounds is the sample standard
deviation with divisor `n - 1` (the pandas default `ddof=1`): for a
column of `n ≥ 2` values, a nonnegative σ with
`σ² · (n - 1) = Σ (v - μ)²` is exactly the `std_dev` of line 90, and the
upper limit it produces is `μ + 3σ`. -/
theorem std_is_sample_std (xs : List ℚ) (σ : ℚ) (h2 : 2 ≤ xs.length)
    (hσ : 0 ≤ σ)
    (hsq : σ ^ 2 * ((xs.length : ℚ) - 1) =
      (xs.map (fun v => (v - colMean xs) ^ 2)).sum) :
    isStdDev xs σ ∧ upperLimit xs σ = colMean xs + 3 * σ := by
  have hn : ((xs.length : ℚ) - 1) ≠ 0 := by
    have h2q : (2 : ℚ) ≤ (xs.length : ℚ) := by exact_mod_cast h2
    linarith
  have hvar : sampleVar xs = σ ^ 2 := by
    unfold sampleVar
    rw [← hsq]
    field_simp
  refine ⟨⟨hσ, ?_⟩, rfl⟩
  rw [hvar]
  ring

/-- C9 witness: on `[0, 2, 4]` (n = 3, μ = 2, Σ(v-μ)² = 8) the value
σ = 2 satisfies σ²·(n-1) = 8 — the `n - 1` divisor — and gives the
upper limit μ + 3σ. -/
theorem std_is_sample_std_witness :
    isStdDev [0, 2, 4] 2 ∧
    upperLimit [0, 2, 4] 2 = colMean [0, 2, 4] + 3 * 2 :=
  std_is_sample_std [0, 2, 4] 2 (by norm_num) (by norm_num)
    (by norm_num [colMean])

theorem colIdx_eq_none (cs : List String) (c : String) :
    colIdx cs c = none ↔ c ∉ cs := by
  induction cs with
  | nil => simp [colIdx]
  | cons d ds ih =>
    simp only [colIdx, List.mem_cons]
    by_cases hd : d = c
    · simp [hd]
    · have hcd : ¬(c = d) := fun h => hd h.symm
      simp [hd, hcd, Option.map_eq_none', ih]

set_option maxRecDepth 4000 in
theorem renameMap_snd_inj :
    ∀ p ∈ renameMap, ∀ q ∈ renameMap, p.2 = q.2 → p.1 = q.1 := by decide

/-- C6: a column label not present in the rename dictionary is left
unchanged by the rename step (silently, not an error); consequently, when
an expected long-form header `L` with short name `S` is absent from the
input (and `S` does not occur as an input label either), the renamed
header still lacks `S`, so every later guard that tests for `S` finds the
column absent and skips its step. -/
theorem rename_noop_absent_header (cols : List String) (L S : String)
    (hmap : (L, S) ∈ renameMap) (hL : L ∉ cols) (hS : S ∉ cols) :
    (∀ c, c ∉ renameMap.map Prod.fst → renameColumn c = c) ∧
    S ∉ cols.map renameColumn ∧
    colIdx (cols.map renameColumn) S = none := by
  have part1 : ∀ c, c ∉ renameMap.map Prod.fst → renameColumn c = c := by
    intro c hc
    unfold renameColumn
    cases hf : renameMap.find? (fun p => p.1 = c) with
    | none => rfl
    | some p =>
      exfalso
      have hp1 : p.1 = c := by
        have := List.find?_some hf
        simpa using this
      have hpm : p ∈ renameMap := List.mem_of_find?_eq_some hf
      exact hc (hp1 ▸ List.mem_map_of_mem Prod.fst hpm)
  have part2 : S ∉ cols.map renameColumn := by
    intro hmem
    obtain ⟨c, hc, hrc⟩ := List.mem_map.1 hmem
    unfold renameColumn at hrc
    cases hf : renameMap.find? (fun p => p.1 = c) with
    | none =>
      rw [hf] at hrc
      exact hS (hrc ▸ hc)
    | some p =>
      rw [hf] at hrc
      have hp1 : p.1 = c := by
        have := List.find?_some hf
        simpa using this
      have hpm : p ∈ renameMap := List.mem_of_find?_eq_some hf
      have hfst : p.1 = L := renameMap_snd_inj p hpm (L, S) hmap hrc
      exact hL (hfst ▸ hp1 ▸ hc)
  exact ⟨part1, part2, (colIdx_eq_none _ _).2 part2⟩

/-- C6 witness: with the weekday-sleep long header absent (and no column
already named `Ave_Weekday_Sleep`), the renamed header of
`["What is your age?", "Extra"]` still has no `Ave_Weekday_Sleep`, so the
guards skip. -/
theorem rename_noop_absent_header_witness :
    (∀ c, c ∉ renameMap.map Prod.fst → renameColumn c = c) ∧
    "Ave_Weekday_Sleep" ∉ ["What is your age?", "Extra"].map renameColumn ∧
    colIdx (["What is your age?", "Extra"].map renameColumn)
      "Ave_Weekday_Sleep" = none :=
  rename_noop_absent_header ["What is your age?", "Extra"]
    "On average, how many hours of sleep do you get on a typical weekday night?"
    "Ave_Weekday_Sleep" (by decide) (by decide) (by decide)

theorem numsE_error_of_str (xs : List Value) (s : String)
    (h : Value.str s ∈ xs) : numsE xs = .error "TypeError" := by
  induction xs with
  | nil => cases h
  | cons v vs ih =>
    rcases List.mem_cons.1 h with heq | hv
    · rw [← heq]
      simp [numsE, Value.toNum, bind, Except.bind]
    · cases v with
      | num q => simp [numsE, Value.toNum, bind, Except.bind, ih hv]
      | str u => simp [numsE, Value.toNum, bind, Except.bind]
      | missing => simp [numsE, Value.toNum, bind, Except.bind]

/-- C7: when the `Ave_Weekday_Sleep` column contains a text cell (for
example the string `"0"` written by missing-value replacement), the
outlier block's arithmetic raises `TypeError`: the whole block — its
statistics and its in-place clamp — propagates the error as a fatal,
unrecovered failure, and the text is never silently coerced to a
number. -/
theorem outlier_arith_fatal_on_text (std : List ℚ → ℚ) (t : Table)
    (i : Nat) (s : String)
    (hi : colIdx t.cols "Ave_Weekday_Sleep" = some i)
    (hs : Value.str s ∈ colAt t i) :
    outlierStep std t = .error "TypeError" ∧
    outlierTableEffect std t = .error "TypeError" := by
  have hn := numsE_error_of_str (colAt t i) s hs
  constructor
  · simp [outlierStep, hi, hn, bind, Except.bind]
  · simp [outlierTableEffect, hi, hn, bind, Except.bind]

/-- C7 witness: a one-column table holding the number 5 and the text
`"0"` makes the outlier block fail with `TypeError`. -/
theorem outlier_arith_fatal_on_text_witness :
    outlierStep (fun _ => 0)
      (Table.mk ["Ave_Weekday_Sleep"] [[Value.num 5], [Value.str "0"]]) =
      .error "TypeError" ∧
    outlierTableEffect (fun _ => 0)
      (Table.mk ["Ave_Weekday_Sleep"] [[Value.num 5], [Value.str "0"]]) =
      .error "TypeError" :=
  outlier_arith_fatal_on_text (fun _ => 0)
    (Table.mk ["Ave_Weekday_Sleep"] [[Value.num 5], [Value.str "0"]])
    0 "0" (by decide) (by simp [colAt])

theorem mem_insertSorted (a c : String) (bs : List String) :
    c ∈ insertSorted a bs ↔ c = a ∨ c ∈ bs := by
  induction bs with
  | nil => simp [insertSorted]
  | cons b bs ih =>
    by_cases h1 : a = b
    · subst h1
      have e : insertSorted a (a :: bs) = a :: bs := by
        simp [insertSorted]
      rw [e]
      simp only [List.mem_cons] <;> tauto
    · by_cases h2 : a < b
      · have e : insertSorted a (b :: bs) = a :: b :: bs := by
          simp only [insertSorted]
          rw [if_neg h1, if_pos h2]
        rw [e]
        simp only [List.mem_cons] <;> tauto
      · have e : insertSorted a (b :: bs) = b :: insertSorted a bs := by
          simp only [insertSorted]
          rw [if_neg h1, if_neg h2]
        rw [e]
        simp only [List.mem_cons, ih] <;> tauto

theorem pairwise_insertSorted (a : String) (bs : List String)
    (h : bs.Pairwise (· < ·)) :
    (insertSorted a bs).Pairwise (· < ·) := by
  induction bs with
  | nil => simp [insertSorted]
  | cons b bs ih =>
    rw [List.pairwise_cons] at h
    obtain ⟨hb, hbs⟩ := h
    simp only [insertSorted]
    by_cases h1 : a = b
    · rw [if_pos h1]
      exact List.pairwise_cons.2 ⟨hb, hbs⟩
    · by_cases h2 : a < b
      · rw [if_neg h1, if_pos h2]
        refine List.pairwise_cons.2 ⟨?_, List.pairwise_cons.2 ⟨hb, hbs⟩⟩
        intro c hc
        rcases List.mem_cons.1 hc with rfl | hc
        · exact h2
        · exact lt_trans h2 (hb c hc)
      · have hba : b < a := by
          rcases lt_trichotomy a b with h | h | h
          · exact absurd h h2
          · exact absurd h h1
          · exact h
        rw [if_neg h1, if_neg h2]
        refine List.pairwise_cons.2 ⟨?_, ih hbs⟩
        intro c hc
        rcases (mem_insertSorted a c bs).1 hc with rfl | hc
        · exact hba
        · exact hb c hc

theorem sortDedup_cons (x : String) (xs : List String) :
    sortDedup (x :: xs) = insertSorted x (sortDedup xs) := rfl

theorem mem_sortDedup (xs : List String) (c : String) :
    c ∈ sortDedup xs ↔ c ∈ xs := by
  induction xs with
  | nil => simp [sortDedup]
  | cons x xs ih => rw [sortDedup_cons, mem_insertSorted, ih, List.mem_cons]

theorem pairwise_sortDedup (xs : List String) :
    (sortDedup xs).Pairwise (· < ·) := by
  induction xs with
  | nil => simp [sortDedup]
  | cons x xs ih => rw [sortDedup_cons]; exact pairwise_insertSorted x _ ih

/-- C8: with both `Age` and `Ave_Weekday_Sleep` present (and holding
category labels resp. numbers), the group-by block renders one bar per
distinct `Age` category whose height is the arithmetic mean (sum over
count) of the sleep values of that category; the bars are indexed by the
strictly sorted distinct age keys — the grouping key's default sort
order, not the order of the means. -/
theorem group_step_spec (t : Table) (i j : Nat)
    (ages : List String) (qs : List ℚ)
    (hi : colIdx t.cols "Age" = some i)
    (hj : colIdx t.cols "Ave_Weekday_Sleep" = some j)
    (ha : strsE (colAt t i) = .ok ages)
    (hq : numsE (colAt t j) = .ok qs) :
    groupStep t = .ok [.barChart (groupMeans (ages.zip qs))] ∧
    ((groupMeans (ages.zip qs)).map Prod.fst).Pairwise (· < ·) ∧
    (∀ a, a ∈ (groupMeans (ages.zip qs)).map Prod.fst ↔
      a ∈ (ages.zip qs).map Prod.fst) ∧
    (∀ p ∈ groupMeans (ages.zip qs),
      p.2 = (((ages.zip qs).filter (fun q => q.1 == p.1)).map Prod.snd).sum /
        ((((ages.zip qs).filter (fun q => q.1 == p.1)).map Prod.snd).length : ℚ)) := by
  refine ⟨?_, ?_, ?_, ?_⟩
  · simp [groupStep, hi, hj, ha, hq, bind, Except.bind, pure, Except.pure]
  · unfold groupMeans
    rw [List.map_map]
    have : (Prod.fst ∘ fun k =>
        (k, colMean (((ages.zip qs).filter (fun p => p.1 == k)).map Prod.snd))) = id := by
      funext k; rfl
    rw [this, List.map_id]
    exact pairwise_sortDedup _
  · intro a
    unfold groupMeans
    rw [List.map_map]
    have : (Prod.fst ∘ fun k =>
        (k, colMean (((ages.zip qs).filter (fun p => p.1 == k)).map Prod.snd))) = id := by
      funext k; rfl
    rw [this, List.map_id]
    exact mem_sortDedup _ a
  · intro p hp
    unfold groupMeans at hp
    obtain ⟨k, -, hk⟩ := List.mem_map.1 hp
    rw [← hk]
    simp [colMean]

/-- C8 witness: ages `["B", "A", "B"]` with sleeps `([4, 5, 8] : List ℚ)` group into
sorted keys `A` then `B`, with means `5` and `6`. -/
theorem group_step_spec_witness :
    groupStep (Table.mk ["Age", "Ave_Weekday_Sleep"]
      [[Value.str "B", Value.num 4], [Value.str "A", Value.num 5],
       [Value.str "B", Value.num 8]]) =
      .ok [.barChart (groupMeans (["B", "A", "B"].zip ([4, 5, 8] : List ℚ)))] ∧
    ((groupMeans (["B", "A", "B"].zip ([4, 5, 8] : List ℚ))).map Prod.fst).Pairwise (· < ·) ∧
    (∀ a, a ∈ (groupMeans (["B", "A", "B"].zip ([4, 5, 8] : List ℚ))).map Prod.fst ↔
      a ∈ (["B", "A", "B"].zip ([4, 5, 8] : List ℚ)).map Prod.fst) ∧
    (∀ p ∈ groupMeans (["B", "A", "B"].zip ([4, 5, 8] : List ℚ)),
      p.2 = (((["B", "A", "B"].zip ([4, 5, 8] : List ℚ)).filter
          (fun q => q.1 == p.1)).map Prod.snd).sum /
        (((((["B", "A", "B"].zip ([4, 5, 8] : List ℚ))).filter
          (fun q => q.1 == p.1)).map Prod.snd).length : ℚ)) :=
  group_step_spec (Table.mk ["Age", "Ave_Weekday_Sleep"]
      [[Value.str "B", Value.num 4], [Value.str "A", Value.num 5],
       [Value.str "B", Value.num 8]])
    0 1 ["B", "A", "B"] ([4, 5, 8] : List ℚ) (by decide) (by decide)
    (by simp [colAt, strsE, bind, Except.bind, pure, Except.pure])
    (by simp [colAt, numsE, Value.toNum, bind, Except.bind, pure, Except.pure])

/-- C2 counterexample: the claim "the in-place clamp affects nothing
downstream" is false. On `c2rows` the sample standard deviation of the
sleep column is exactly 4, so the upper limit is 13 and the value 16 is
clamped in place; the grouped-mean step, which re-reads the clamped
column (line 111), then reports a different mean (13/16 instead of 1). -/
theorem clamp_affects_downstream_counterexample :
    isStdDev (c2rows.map Prod.snd) 4 ∧
    upperLimit (c2rows.map Prod.snd) 4 = 13 ∧
    clampPairs (upperLimit (c2rows.map Prod.snd) 4) c2rows ≠ c2rows ∧
    groupMeans (clampPairs (upperLimit (c2rows.map Prod.snd) 4) c2rows) ≠
      groupMeans c2rows := by
  have hu : upperLimit (c2rows.map Prod.snd) 4 = 13 := by
    norm_num [upperLimit, colMean, c2rows]
  refine ⟨?_, hu, ?_, ?_⟩
  · norm_num [isStdDev, sampleVar, colMean, c2rows]
  · rw [hu]
    norm_num [clampPairs, c2rows]
  · rw [hu]
    norm_num [groupMeans, clampPairs, sortDedup, insertSorted, colMean, c2rows]

/-- C2 amended: the grouped-mean step (line 111) and the `< 6` filter
step (line 125) do re-read `Ave_Weekday_Sleep` after the in-place clamp;
they produce the same results as without the clamp exactly in the runs
where no value reaches the upper limit `μ + 3σ`, in which case the clamp
rewrites nothing. -/
theorem clamp_unobservable_when_below_upper (rows : List (String × ℚ))
    (σ : ℚ) (hσ : isStdDev (rows.map Prod.snd) σ)
    (h : ∀ p ∈ rows, p.2 < upperLimit (rows.map Prod.snd) σ) :
    clampPairs (upperLimit (rows.map Prod.snd) σ) rows = rows ∧
    groupMeans (clampPairs (upperLimit (rows.map Prod.snd) σ) rows) =
      groupMeans rows ∧
    filterLtPairs 6 (clampPairs (upperLimit (rows.map Prod.snd) σ) rows) =
      filterLtPairs 6 rows := by
  have e : clampPairs (upperLimit (rows.map Prod.snd) σ) rows = rows := by
    unfold clampPairs
    conv_rhs => rw [← List.map_id rows]
    apply List.map_congr_left
    intro p hp
    have hlt := h p hp
    simp [not_le.2 hlt]
  exact ⟨e, by rw [e], by rw [e]⟩

/-- C2 amended witness: three rows of one age group with sleeps 0, 2, 4
(σ = 2, upper limit 8) are untouched by the clamp, so the group means and
the filter output agree with the unclamped ones. -/
theorem clamp_unobservable_when_below_upper_witness :
    clampPairs (upperLimit ([("A", 0), ("A", 2), ("A", 4)].map Prod.snd) 2)
      [("A", 0), ("A", 2), ("A", 4)] = [("A", 0), ("A", 2), ("A", 4)] ∧
    groupMeans (clampPairs
      (upperLimit ([("A", 0), ("A", 2), ("A", 4)].map Prod.snd) 2)
      [("A", 0), ("A", 2), ("A", 4)]) =
      groupMeans [("A", 0), ("A", 2), ("A", 4)] ∧
    filterLtPairs 6 (clampPairs
      (upperLimit ([("A", 0), ("A", 2), ("A", 4)].map Prod.snd) 2)
      [("A", 0), ("A", 2), ("A", 4)]) =
      filterLtPairs 6 [("A", 0), ("A", 2), ("A", 4)] :=
  clamp_unobservable_when_below_upper [("A", 0), ("A", 2), ("A", 4)] 2
    (by norm_num [isStdDev, sampleVar, colMean])
    (by norm_num [upperLimit, colMean])

/-- C10: when `Ave_Weekday_Sleep` is absent from the loaded table, the
shared table is never mutated after the Loader returns: the clamp block
is skipped entirely (its table-effect is the identity), and since every
other report step only reads the table or builds new derived objects, the
shared table at the end of any completed run equals the table the Loader
produced. -/
theorem no_mutation_when_column_absent (std : List ℚ → ℚ)
    (pval : List (List Nat) → ℚ) (t : Table)
    (h : "Ave_Weekday_Sleep" ∉ t.cols) :
    outlierTableEffect std t = .ok t ∧
    Except.map Prod.snd (reportRun std pval t) =
      Except.map (fun _ => t) (reportRun std pval t) := by
  have hc : colIdx t.cols "Ave_Weekday_Sleep" = none := (colIdx_eq_none _ _).2 h
  have h1 : outlierTableEffect std t = .ok t := by
    simp [outlierTableEffect, hc]
  have h0 : outlierStep std t = .ok [Msg.missingCols ["Ave_Weekday_Sleep"]] := by
    simp [outlierStep, hc]
  refine ⟨h1, ?_⟩
  simp only [reportRun, h0, h1, bind, Except.bind]
  cases hg : groupStep t with
  | error e => simp [Except.map]
  | ok m2 =>
    cases hf : filteredStep t with
    | error e => simp [Except.map]
    | ok m3 =>
      cases h4 : chiStep pval "ST_Weekday" "Interaction_Affects" t with
      | error e => simp [Except.map]
      | ok m4 =>
        cases h5 : chiStep pval "ST_Weekend" "Interaction_Affects" t with
        | error e => simp [Except.map]
        | ok m5 => simp [Except.map, pure, Except.pure]

/-- C10 witness: on a one-column table without `Ave_Weekday_Sleep` the
outlier block leaves the table as loaded and the completed run ends with
that same table. -/
theorem no_mutation_when_column_absent_witness :
    outlierTableEffect (fun _ => 0)
      (Table.mk ["Gender"] [[Value.str "F"]]) =
      .ok (Table.mk ["Gender"] [[Value.str "F"]]) ∧
    Except.map Prod.snd
        (reportRun (fun _ => 0) (fun _ => 0)
          (Table.mk ["Gender"] [[Value.str "F"]])) =
      Except.map (fun _ => Table.mk ["Gender"] [[Value.str "F"]])
        (reportRun (fun _ => 0) (fun _ => 0)
          (Table.mk ["Gender"] [[Value.str "F"]])) :=
  no_mutation_when_column_absent (fun _ => 0) (fun _ => 0)
    (Table.mk ["Gender"] [[Value.str "F"]]) (by decide)

/-- C4: each report step that names required columns checks for them
before executing: when a required column is absent the step returns
normally (no exception) with the fixed fallback message naming the
missing column(s), skipping only itself; in particular, when
`Health_Effects` is absent (with `Ave_Weekday_Sleep` present and
numeric), the filtered sub-report still shows its head while the
three-column projection and the scatter plot each emit their fallback
message and do not throw. -/
theorem missing_column_guards :
    (∀ std t, "Ave_Weekday_Sleep" ∉ t.cols →
      outlierStep std t = .ok [.missingCols ["Ave_Weekday_Sleep"]]) ∧
    (∀ t, "Age" ∉ t.cols ∨ "Ave_Weekday_Sleep" ∉ t.cols →
      groupStep t = .ok [.missingCols ["Age", "Ave_Weekday_Sleep"]]) ∧
    (∀ t, "Ave_Weekday_Sleep" ∉ t.cols →
      filteredStep t = .ok [.missingCols ["Ave_Weekday_Sleep"]]) ∧
    (∀ pval t, "ST_Weekday" ∉ t.cols ∨ "Interaction_Affects" ∉ t.cols →
      chiStep pval "ST_Weekday" "Interaction_Affects" t =
        .ok [.missingCols ["ST_Weekday", "Interaction_Affects"]]) ∧
    (∀ pval t, "ST_Weekend" ∉ t.cols ∨ "Interaction_Affects" ∉ t.cols →
      chiStep pval "ST_Weekend" "Interaction_Affects" t =
        .ok [.missingCols ["ST_Weekend", "Interaction_Affects"]]) ∧
    (∀ t i fr, colIdx t.cols "Ave_Weekday_Sleep" = some i →
      "Health_Effects" ∉ t.cols →
      filterRowsLtE i 6 t.rows = .ok fr →
      filteredStep t = .ok [.tableHead (fr.take 5),
        .missingCols ["Health_Effects", "Eyewear_User", "Interaction_Affects"],
        .missingCols ["Health_Effects"]]) := by
  refine ⟨?_, ?_, ?_, ?_, ?_, ?_⟩
  · intro std t h
    have hc := (colIdx_eq_none t.cols "Ave_Weekday_Sleep").2 h
    simp [outlierStep, hc]
  · intro t h
    rcases h with h | h
    · have hc := (colIdx_eq_none t.cols "Age").2 h
      cases h2 : colIdx t.cols "Ave_Weekday_Sleep" <;> simp [groupStep, hc, h2]
    · have hc := (colIdx_eq_none t.cols "Ave_Weekday_Sleep").2 h
      cases h2 : colIdx t.cols "Age" <;> simp [groupStep, hc, h2]
  · intro t h
    have hc := (colIdx_eq_none t.cols "Ave_Weekday_Sleep").2 h
    simp [filteredStep, hc]
  · intro pval t h
    rcases h with h | h
    · have hc := (colIdx_eq_none t.cols "ST_Weekday").2 h
      cases h2 : colIdx t.cols "Interaction_Affects" <;> simp [chiStep, hc, h2]
    · have hc := (colIdx_eq_none t.cols "Interaction_Affects").2 h
      cases h2 : colIdx t.cols "ST_Weekday" <;> simp [chiStep, hc, h2]
  · intro pval t h
    rcases h with h | h
    · have hc := (colIdx_eq_none t.cols "ST_Weekend").2 h
      cases h2 : colIdx t.cols "Interaction_Affects" <;> simp [chiStep, hc, h2]
    · have hc := (colIdx_eq_none t.cols "Interaction_Affects").2 h
      cases h2 : colIdx t.cols "ST_Weekend" <;> simp [chiStep, hc, h2]
  · intro t i fr hi hHE hfr
    have hc := (colIdx_eq_none t.cols "Health_Effects").2 hHE
    simp [filteredStep, hi, hfr, hc, bind, Except.bind, pure, Except.pure]

/-- C4 witness: on the table `["Gender"]` every guarded step emits its
fallback message, and on a numeric one-column sleep table without
`Health_Effects` the filtered sub-report emits the projection and
scatter fallbacks without throwing. -/
theorem missing_column_guards_witness :
    outlierStep (fun _ => 0) (Table.mk ["Gender"] []) =
      .ok [.missingCols ["Ave_Weekday_Sleep"]] ∧
    groupStep (Table.mk ["Gender"] []) =
      .ok [.missingCols ["Age", "Ave_Weekday_Sleep"]] ∧
    filteredStep (Table.mk ["Gender"] []) =
      .ok [.missingCols ["Ave_Weekday_Sleep"]] ∧
    chiStep (fun _ => 0) "ST_Weekday" "Interaction_Affects"
        (Table.mk ["Gender"] []) =
      .ok [.missingCols ["ST_Weekday", "Interaction_Affects"]] ∧
    chiStep (fun _ => 0) "ST_Weekend" "Interaction_Affects"
        (Table.mk ["Gender"] []) =
      .ok [.missingCols ["ST_Weekend", "Interaction_Affects"]] ∧
    filteredStep (Table.mk ["Ave_Weekday_Sleep"] [[Value.num 5], [Value.num 7]]) =
      .ok [.tableHead [[Value.num 5]],
        .missingCols ["Health_Effects", "Eyewear_User", "Interaction_Affects"],
        .missingCols ["Health_Effects"]] :=
  ⟨missing_column_guards.1 (fun _ => 0) (Table.mk ["Gender"] []) (by decide),
   missing_column_guards.2.1 (Table.mk ["Gender"] []) (Or.inl (by decide)),
   missing_column_guards.2.2.1 (Table.mk ["Gender"] []) (by decide),
   missing_column_guards.2.2.2.1 (fun _ => 0) (Table.mk ["Gender"] [])
     (Or.inl (by decide)),
   missing_column_guards.2.2.2.2.1 (fun _ => 0) (Table.mk ["Gender"] [])
     (Or.inl (by decide)),
   missing_column_guards.2.2.2.2.2
     (Table.mk ["Ave_Weekday_Sleep"] [[Value.num 5], [Value.num 7]])
     0 [[Value.num 5]] (by decide) (by decide)
     (by norm_num [filterRowsLtE, Value.toNum, bind, Except.bind, pure, Except.pure])⟩

/-- C5: for each of the two association tests — `ST_Weekday` against
`Interaction_Affects` and `ST_Weekend` against `Interaction_Affects` —
when both columns exist the step builds the contingency table of joint
category counts (each cell of `crosstab` is the number of rows carrying
that pair of labels), reports the p-value of the chi-square independence
test (the `pval` oracle applied to that table), and classifies the result
as a significant association exactly when `p < 0.05`, with strict
comparison against the fixed constant. -/
theorem chi_square_steps (pval : List (List Nat) → ℚ) :
    (∀ t i j a b, colIdx t.cols "ST_Weekday" = some i →
      colIdx t.cols "Interaction_Affects" = some j →
      strsE (colAt t i) = .ok a → strsE (colAt t j) = .ok b →
      chiStep pval "ST_Weekday" "Interaction_Affects" t =
        .ok [.chiReport (pval (crosstab (a.zip b)))
          (decide (pval (crosstab (a.zip b)) < 1/20))]) ∧
    (∀ t i j a b, colIdx t.cols "ST_Weekend" = some i →
      colIdx t.cols "Interaction_Affects" = some j →
      strsE (colAt t i) = .ok a → strsE (colAt t j) = .ok b →
      chiStep pval "ST_Weekend" "Interaction_Affects" t =
        .ok [.chiReport (pval (crosstab (a.zip b)))
          (decide (pval (crosstab (a.zip b)) < 1/20))]) ∧
    (∀ ps : List (String × String),
      crosstab ps = (sortDedup (ps.map Prod.fst)).map (fun x =>
        (sortDedup (ps.map Prod.snd)).map (fun y =>
          ps.countP (fun p => p.1 == x && p.2 == y)))) ∧
    (∀ q : ℚ, decide (q < 1/20) = true ↔ q < 1/20) := by
  refine ⟨?_, ?_, ?_, fun q => decide_eq_true_iff⟩
  · intro t i j a b hi hj ha hb
    simp [chiStep, hi, hj, ha, hb, bind, Except.bind, pure, Except.pure]
  · intro t i j a b hi hj ha hb
    simp [chiStep, hi, hj, ha, hb, bind, Except.bind, pure, Except.pure]
  · intro ps
    unfold crosstab
    apply List.map_congr_left
    intro x _
    apply List.map_congr_left
    intro y _
    rw [List.countP_map, List.countP_filter]
    congr 1
    funext p
    exact Bool.and_comm _ _

/-- C5 witness: a one-row table with both screen-time and interaction
columns makes the weekday step report the oracle p-value of the 1×1
contingency table and the strict `p < 0.05` classification. -/
theorem chi_square_steps_witness :
    chiStep (fun _ => 0) "ST_Weekday" "Interaction_Affects"
        (Table.mk ["ST_Weekday", "Interaction_Affects"]
          [[Value.str "2-4", Value.str "Yes"]]) =
      .ok [.chiReport ((fun _ => (0 : ℚ)) (crosstab (["2-4"].zip ["Yes"])))
        (decide ((fun _ => (0 : ℚ)) (crosstab (["2-4"].zip ["Yes"])) < 1/20))] :=
  (chi_square_steps (fun _ => 0)).1
    (Table.mk ["ST_Weekday", "Interaction_Affects"]
      [[Value.str "2-4", Value.str "Yes"]])
    0 1 ["2-4"] ["Yes"] (by decide) (by decide) rfl rfl
